import Mathlib

/-!
Verification development for the storage core of a mail server
(query filter engine, storage error model, subspace registry,
blob store contract, anchor pagination).

Strings from the source are modelled as `List Char`; byte vectors
(`Vec<u8>`) as `List Nat`; `u8`/`u32` identifiers as `Nat`; the
detector confidence (`f64`) as `ℚ`.
-/

namespace MailServer

/-- Language codes used by the full-text subsystem. The concrete table is
an external collaborator (`crate::fts::Language`); only the variants used
by the query layer and by concrete examples are materialized, plus
`Unknown` which the query layer treats specially. -/
inductive Language where
  | Unknown
  | English
  | Spanish
  | French
  | German
  deriving DecidableEq, Repr

/-- Environment of external collaborators consumed by `match_text`:
an ISO-639 code table (`Language::from_iso_639`) and a statistical
language detector (`LanguageDetector::detect_single`) returning a
candidate language with a confidence score. -/
structure FtsEnv where
  from_iso_639 : List Char → Option Language
  detect_single : List Char → Option (Language × ℚ)

/-- Rust `Operator` from src/src/query/mod.rs. -/
inductive Operator where
  | LowerThan
  | LowerEqualThan
  | GreaterThan
  | GreaterEqualThan
  | Equal
  deriving DecidableEq, Repr

/-- Rust `Filter` from src/src/query/mod.rs. `RoaringBitmap` is modelled as a
finite set of document identifiers. -/
inductive Filter where
  | HasKeyword (field : Nat) (value : List Char)
  | HasKeywords (field : Nat) (value : List Char)
  | MatchValue (field : Nat) (op : Operator) (value : List Nat)
  | HasText (field : Nat) (text : List Char) (language : Language)
      (match_phrase : Bool)
  | InBitmap (family : Nat) (field : Nat) (key : List Nat)
  | DocumentSet (s : Finset Nat)
  | And
  | Or
  | Not
  | End
  deriving DecidableEq

/-- Rust `Comparator` from src/src/query/mod.rs. -/
inductive Comparator where
  | Field (field : Nat) (ascending : Bool)
  | DocumentSet (set : Finset Nat) (ascending : Bool)
  deriving DecidableEq

/-- Rust `ResultSet` from src/src/query/mod.rs. -/
structure ResultSet where
  results : Finset Nat
  document_ids : Finset Nat

/-- Rust `SortedResultRet` from src/src/query/mod.rs (`position: i32`). -/
structure SortedResultRet where
  position : Int
  ids : List Nat
  found_anchor : Bool
  deriving DecidableEq, Repr

/-- Rust `str::starts_with(char)`: empty strings start with no character. -/
def startsWithChar (s : List Char) (c : Char) : Bool :=
  s.head? = some c

/-- Rust `str::ends_with(char)`: empty strings end with no character. -/
def endsWithChar (s : List Char) (c : Char) : Bool :=
  s.getLast? = some c

/-- Rust `str::split_once(char)`: splits at the first occurrence of the
separator, returning the parts before and after it; `none` when the
separator does not occur. -/
def splitOnce (c : Char) : List Char → Option (List Char × List Char)
  | [] => none
  | x :: xs =>
    if x = c then some ([], xs)
    else (splitOnce c xs).map (fun p => (x :: p.1, p.2))

/-- Character 39, the ASCII single quote. -/
def singleQuoteChar : Char := Char.ofNat 39

/-- The quoting test of `Filter::match_text`: the text starts and ends
with a double quote, or starts and ends with a single quote. -/
def computeMatchPhrase (text : List Char) : Bool :=
  (startsWithChar text '"' && endsWithChar text '"') ||
  (startsWithChar text singleQuoteChar && endsWithChar text singleQuoteChar)

/-- The colon shorthand of `Filter::match_text`:
`text.split_once(':').and_then(|(l, t)| (Language::from_iso_639(l)?, t.to_string()).into())`. -/
def languageShorthand (env : FtsEnv) (text : List Char) :
    Option (Language × List Char) :=
  (splitOnce ':' text).bind fun lt =>
    (env.from_iso_639 lt.1).map fun lang => (lang, lt.2)

/-- The detector fallback of `Filter::match_text`:
`LanguageDetector::detect_single(&text)
   .and_then(|(l, c)| if c > 0.3 { Some(l) } else { None })
   .unwrap_or(Language::Unknown)`. -/
def detectLanguage (env : FtsEnv) (text : List Char) : Language :=
  match env.detect_single text with
  | some lc => if (3 : ℚ) / 10 < lc.2 then lc.1 else Language.Unknown
  | none => Language.Unknown

/-- Rust `Filter::match_text` from src/src/query/mod.rs, parameterized by the
external ISO-639 table and language detector. -/
def Filter.match_text (env : FtsEnv) (field : Nat) (text : List Char)
    (language : Language) : Filter :=
  let match_phrase := computeMatchPhrase text
  if match_phrase = false ∧ language = Language.Unknown then
    match languageShorthand env text with
    | some lt => Filter.HasText field lt.2 lt.1 match_phrase
    | none =>
      Filter.HasText field text (detectLanguage env text) match_phrase
  else
    Filter.HasText field text language match_phrase

/-- A type usable as a filter value: the `Serialize` bound of the
condition constructors (`value: impl Serialize`), producing bytes. -/
structure Serializable (α : Type) where
  serialize : α → List Nat

/-- Rust `Filter::new_condition` from src/src/query/mod.rs. -/
def Filter.new_condition {α : Type} (S : Serializable α) (field : Nat)
    (op : Operator) (value : α) : Filter :=
  Filter.MatchValue field op (S.serialize value)

/-- Rust `Filter::eq` from src/src/query/mod.rs. -/
def Filter.eq {α : Type} (S : Serializable α) (field : Nat)
    (value : α) : Filter :=
  Filter.MatchValue field Operator.Equal (S.serialize value)

/-- Rust `Filter::lt` from src/src/query/mod.rs. -/
def Filter.lt {α : Type} (S : Serializable α) (field : Nat)
    (value : α) : Filter :=
  Filter.MatchValue field Operator.LowerThan (S.serialize value)

/-- Rust `Filter::le` from src/src/query/mod.rs. -/
def Filter.le {α : Type} (S : Serializable α) (field : Nat)
    (value : α) : Filter :=
  Filter.MatchValue field Operator.LowerEqualThan (S.serialize value)

/-- Rust `Filter::gt` from src/src/query/mod.rs. -/
def Filter.gt {α : Type} (S : Serializable α) (field : Nat)
    (value : α) : Filter :=
  Filter.MatchValue field Operator.GreaterThan (S.serialize value)

/-- Rust `Filter::ge` from src/src/query/mod.rs. -/
def Filter.ge {α : Type} (S : Serializable α) (field : Nat)
    (value : α) : Filter :=
  Filter.MatchValue field Operator.GreaterEqualThan (S.serialize value)

/-- Rust `BlobClass` from src/crates/store/src/lib.rs. -/
inductive BlobClass where
  | Reserved (account_id : Nat)
  | Linked (account_id : Nat) (collection : Nat) (document_id : Nat)
  deriving DecidableEq, Repr

/-- Rust `impl Default for BlobClass` from src/crates/store/src/lib.rs:
`BlobClass::Reserved { account_id: 0 }`. -/
def BlobClass.default : BlobClass :=
  BlobClass.Reserved 0

/-- Rust `Error` from src/crates/store/src/lib.rs: a generic internal failure
with a message, or the compare-and-swap (assert-value) violation. -/
inductive Error where
  | InternalError (msg : List Char)
  | AssertValueFailed
  deriving DecidableEq

/-- Rust `impl From<String> for Error` from src/crates/store/src/lib.rs:
`Error::InternalError(msg)`. -/
def Error.fromString (msg : List Char) : Error :=
  Error.InternalError msg

/-- Constant `SUBSPACE_BITMAPS` = byte of character b from src/crates/store/src/lib.rs. -/
def SUBSPACE_BITMAPS : Nat := 98

/-- Constant `SUBSPACE_VALUES` = byte of character v from src/crates/store/src/lib.rs. -/
def SUBSPACE_VALUES : Nat := 118

/-- Constant `SUBSPACE_LOGS` = byte of character l from src/crates/store/src/lib.rs. -/
def SUBSPACE_LOGS : Nat := 108

/-- Constant `SUBSPACE_INDEXES` = byte of character i from src/crates/store/src/lib.rs. -/
def SUBSPACE_INDEXES : Nat := 105

/-- Constant `SUBSPACE_BLOBS` = byte of character o from src/crates/store/src/lib.rs. -/
def SUBSPACE_BLOBS : Nat := 111

/-- Constant `SUBSPACE_ACLS` = byte of character a from src/crates/store/src/lib.rs. -/
def SUBSPACE_ACLS : Nat := 97

/-- Constant `SUBSPACE_COUNTERS` = byte of character c from src/crates/store/src/lib.rs. -/
def SUBSPACE_COUNTERS : Nat := 99

/-- The seven subspace constants in declaration order. -/
def subspaceTable : List Nat :=
  [SUBSPACE_BITMAPS, SUBSPACE_VALUES, SUBSPACE_LOGS, SUBSPACE_INDEXES,
   SUBSPACE_BLOBS, SUBSPACE_ACLS, SUBSPACE_COUNTERS]

/-- Modelled from the spec: the `BlobStore` trait in
src/crates/store/src/lib.rs only declares `get_blob`, `put_blob` and
`delete_blob`; no implementation is in the excerpt. The store state is
modelled as an association list from blob keys to their byte contents
(at most one binding per key is relied upon via first-match lookup). -/
abbrev BlobStoreState : Type :=
  List (List Nat × List Nat)

/-- First-match lookup of a blob key in the store state. -/
def blobLookup (key : List Nat) : BlobStoreState → Option (List Nat)
  | [] => none
  | kv :: rest => if kv.1 = key then some kv.2 else blobLookup key rest

/-- Removal of every binding of a blob key from the store state. -/
def blobErase (key : List Nat) : BlobStoreState → BlobStoreState
  | [] => []
  | kv :: rest =>
    if kv.1 = key then blobErase key rest else kv :: blobErase key rest

/-- Modelled from the spec: `get_blob(key, byte_range) -> optional bytes`,
absent blob yields none, not an error; a present blob yields exactly
`bytes[range]` for the half-open byte range. -/
def get_blob (s : BlobStoreState) (key : List Nat) (range : Nat × Nat) :
    Option (List Nat) :=
  match blobLookup key s with
  | some data => some ((data.drop range.1).take (range.2 - range.1))
  | none => none

/-- Modelled from the spec: `put_blob(key, bytes) -> unit` persists the
keyed bytes, replacing any previous contents under the key. -/
def put_blob (s : BlobStoreState) (key : List Nat) (data : List Nat) :
    BlobStoreState :=
  (key, data) :: blobErase key s

/-- Modelled from the spec: `delete_blob(key) -> bool`, false if the key
was absent, true if a present blob was deleted. -/
def delete_blob (s : BlobStoreState) (key : List Nat) :
    BlobStoreState × Bool :=
  match blobLookup key s with
  | some _ => (blobErase key s, true)
  | none => (s, false)

/-- Modelled from the spec: anchor-based pagination (the sort module is
declared but not in the excerpt; `SortedResultRet` is its result type).
Given the sorted sequence of identifiers, the engine scans to locate the
anchor; if absent, `found_anchor` is false. If found at zero-based index
`i`, the forward page is the next `limit` identifiers after the anchor
and the backward page is the `limit` identifiers just before it, with
`position` reporting the zero-based position of the first identifier of
the returned window within the full sequence. -/
def paginate_anchor (seq : List Nat) (anchor : Nat) (limit : Nat)
    (forward : Bool) : SortedResultRet :=
  match seq.indexOf? anchor with
  | none => { position := 0, ids := [], found_anchor := false }
  | some i =>
    if forward then
      { position := (i : Int) + 1
        ids := (seq.drop (i + 1)).take limit
        found_anchor := true }
    else
      { position := ((i - min i limit : Nat) : Int)
        ids := (seq.drop (i - min i limit)).take (min i limit)
        found_anchor := true }

/-- A concrete external-collaborator environment used to evaluate the
query-layer theorems on concrete inputs. -/
def testEnv : FtsEnv where
  from_iso_639 := fun s =>
    if s = ['e', 's'] then some Language.Spanish
    else if s = ['e', 'n'] then some Language.English
    else none
  detect_single := fun s =>
    if s = ['h', 'o', 'l', 'a'] then some (Language.Spanish, (9 : ℚ) / 10)
    else if s = ['b', 'o', 'n', 'j', 'o', 'u', 'r'] then
      some (Language.French, (2 : ℚ) / 5)
    else if s = ['z', 'z'] then some (Language.German, (1 : ℚ) / 10)
    else none

/-- Helper: the detection threshold is exceeded by confidence 2/5. -/
theorem threeTenthsLtTwoFifths : (3 : ℚ) / 10 < 2 / 5 := by
  norm_num

/-- Helper: the detection threshold is not exceeded by confidence 1/10. -/
theorem notThreeTenthsLtOneTenth : ¬ (3 : ℚ) / 10 < 1 / 10 := by
  norm_num

/-- Claim C1: for every field, text and requested language, if the text is
wrapped in a matching pair of double quotes or of single quotes (length at
least two, first and last character the same quote), `match_text` returns a
`HasText` filter with `match_phrase = true`, the language exactly as given
and the text unchanged, independent of the external shorthand table and
detector (no colon-shorthand parsing, no language detection). -/
theorem match_text_quoted (env : FtsEnv) (field : Nat) (text : List Char)
    (language : Language)
    (h : (2 ≤ text.length ∧ text.head? = some '"' ∧
        text.getLast? = some '"') ∨
      (2 ≤ text.length ∧ text.head? = some singleQuoteChar ∧
        text.getLast? = some singleQuoteChar)) :
    Filter.match_text env field text language =
      Filter.HasText field text language true := by
  have hmp : computeMatchPhrase text = true := by
    rcases h with ⟨-, h1, h2⟩ | ⟨-, h1, h2⟩ <;>
      simp [computeMatchPhrase, startsWithChar, endsWithChar, h1, h2]
  simp [Filter.match_text, hmp]

/-- Witness for C1: `match_text("\"hello world\"", Unknown)` yields
`match_phrase = true` and `language = Unknown`, text verbatim. -/
theorem match_text_quoted_witness :
    Filter.match_text testEnv 0 ("\"hello world\"".toList) Language.Unknown
      = Filter.HasText 0 ("\"hello world\"".toList) Language.Unknown true :=
  match_text_quoted testEnv 0 ("\"hello world\"".toList) Language.Unknown
    (Or.inl ⟨by decide, by decide, by decide⟩)

/-- Claim C2: for every non-quoted text, when the requested language is
`Unknown`, `match_text` splits the text on the first colon; if the part
before the colon parses as a known language code, the returned filter
carries that language and the remainder after the colon as its text, with
`match_phrase = false`. -/
theorem match_text_shorthand (env : FtsEnv) (field : Nat)
    (text l t : List Char) (lang : Language)
    (hq : computeMatchPhrase text = false)
    (hs : splitOnce ':' text = some (l, t))
    (hl : env.from_iso_639 l = some lang) :
    Filter.match_text env field text Language.Unknown =
      Filter.HasText field t lang false := by
  simp [Filter.match_text, hq, languageShorthand, hs, hl]

/-- Witness for C2: `match_text("es:hola", Unknown)` yields
`language = Spanish`, `text = "hola"`, `match_phrase = false`. -/
theorem match_text_shorthand_witness :
    Filter.match_text testEnv 0 ("es:hola".toList) Language.Unknown =
      Filter.HasText 0 ("hola".toList) Language.Spanish false :=
  match_text_shorthand testEnv 0 ("es:hola".toList)
    (['e', 's']) ("hola".toList) Language.Spanish
    (by decide) (by decide) (by decide)

/-- Claim C3: for every non-quoted text with requested language `Unknown`
where the colon shorthand yields no known language code, `match_text`
runs the detector on the full text; its top candidate is accepted exactly
when the confidence strictly exceeds 3/10, otherwise the language falls
back to `Unknown`; the text of the returned filter is the input text
unchanged in every case. -/
theorem match_text_detection (env : FtsEnv) (field : Nat) (text : List Char)
    (hq : computeMatchPhrase text = false)
    (hs : languageShorthand env text = none) :
    (∀ l c, env.detect_single text = some (l, c) → (3 : ℚ) / 10 < c →
      Filter.match_text env field text Language.Unknown =
        Filter.HasText field text l false) ∧
    (∀ l c, env.detect_single text = some (l, c) → ¬ (3 : ℚ) / 10 < c →
      Filter.match_text env field text Language.Unknown =
        Filter.HasText field text Language.Unknown false) ∧
    (env.detect_single text = none →
      Filter.match_text env field text Language.Unknown =
        Filter.HasText field text Language.Unknown false) := by
  refine ⟨fun l c hd hc => ?_, fun l c hd hc => ?_, fun hd => ?_⟩
  · simp [Filter.match_text, hq, hs, detectLanguage, hd, hc]
  · simp [Filter.match_text, hq, hs, detectLanguage, hd, hc]
  · simp [Filter.match_text, hq, hs, detectLanguage, hd]

/-- Witness for C3: on "bonjour" the detector of `testEnv` answers
French with confidence 2/5 > 3/10, so the language is accepted and the
text kept unchanged. -/
theorem match_text_detection_witness :
    Filter.match_text testEnv 0 ("bonjour".toList) Language.Unknown =
      Filter.HasText 0 ("bonjour".toList) Language.French false :=
  (match_text_detection testEnv 0 ("bonjour".toList)
      (by decide) (by decide)).1
    Language.French ((2 : ℚ) / 5) rfl threeTenthsLtTwoFifths

/-- Claim C8: the single-character texts consisting of one double quote or
one single quote are not wrapped in a pair of quotes (length one), yet
`match_text` yields `match_phrase = true` on them; and whenever the
quoting test holds, the quotes are not stripped: the returned filter is
`HasText` with the input text verbatim and the language as given. -/
theorem match_text_phrase_cases :
    ((['"'] : List Char).length = 1 ∧
      ([singleQuoteChar] : List Char).length = 1) ∧
    (∀ env field language,
      Filter.match_text env field ['"'] language =
        Filter.HasText field ['"'] language true) ∧
    (∀ env field language,
      Filter.match_text env field [singleQuoteChar] language =
        Filter.HasText field [singleQuoteChar] language true) ∧
    (∀ env field text language, computeMatchPhrase text = true →
      Filter.match_text env field text language =
        Filter.HasText field text language true) := by
  refine ⟨⟨rfl, rfl⟩, fun env field language => ?_,
    fun env field language => ?_, fun env field text language h => ?_⟩
  · have hmp : computeMatchPhrase ['"'] = true := by decide
    simp [Filter.match_text, hmp]
  · have hmp : computeMatchPhrase [singleQuoteChar] = true := by decide
    simp [Filter.match_text, hmp]
  · simp [Filter.match_text, h]

/-- Witness for C8: a concrete quoted text is returned verbatim, with the
requested language untouched. -/
theorem match_text_phrase_cases_witness :
    Filter.match_text testEnv 7 ['"', 'a', '"'] Language.English =
      Filter.HasText 7 ['"', 'a', '"'] Language.English true :=
  match_text_phrase_cases.2.2.2 testEnv 7 ['"', 'a', '"'] Language.English
    (by decide)

/-- Claim C9: the convenience condition constructors agree with
`new_condition` at the corresponding operator, and each produces a
`MatchValue` filter whose value field is exactly the serialized bytes of
the given value. -/
theorem condition_constructors_agree {α : Type} (S : Serializable α)
    (field : Nat) (op : Operator) (v : α) :
    Filter.eq S field v = Filter.new_condition S field Operator.Equal v ∧
    Filter.lt S field v =
      Filter.new_condition S field Operator.LowerThan v ∧
    Filter.le S field v =
      Filter.new_condition S field Operator.LowerEqualThan v ∧
    Filter.gt S field v =
      Filter.new_condition S field Operator.GreaterThan v ∧
    Filter.ge S field v =
      Filter.new_condition S field Operator.GreaterEqualThan v ∧
    Filter.new_condition S field op v =
      Filter.MatchValue field op (S.serialize v) :=
  ⟨rfl, rfl, rfl, rfl, rfl, rfl⟩

/-- A concrete serializer used to evaluate the constructor theorems on a
concrete input: a natural number becomes a one-byte vector. -/
def natSerializable : Serializable Nat where
  serialize := fun n => [n]

/-- Witness for C9: at the concrete serializer, `Filter::eq` on field 1
and value 5 is the `MatchValue` filter with operator `Equal` and the
serialized bytes `[5]`. -/
theorem condition_constructors_agree_witness :
    Filter.eq natSerializable 1 5 =
      Filter.MatchValue 1 Operator.Equal [5] := by
  have h := condition_constructors_agree natSerializable 1 Operator.Equal 5
  rw [h.1, h.2.2.2.2.2]
  rfl

/-- Claim C4: the storage error type has exactly the two kinds
`InternalError` (with a message) and `AssertValueFailed`, the two are
distinct, and the conversion from a plain string always yields the
generic internal failure, never the compare-and-swap violation. -/
theorem error_model :
    (∀ e : Error,
      (∃ msg, e = Error.InternalError msg) ∨ e = Error.AssertValueFailed) ∧
    (∀ msg, Error.InternalError msg ≠ Error.AssertValueFailed) ∧
    (∀ msg, Error.fromString msg = Error.InternalError msg) ∧
    (∀ msg, Error.fromString msg ≠ Error.AssertValueFailed) := by
  refine ⟨fun e => ?_, fun msg h => Error.noConfusion h, fun msg => rfl,
    fun msg h => Error.noConfusion h⟩
  cases e with
  | InternalError msg => exact Or.inl ⟨msg, rfl⟩
  | AssertValueFailed => exact Or.inr rfl

/-- Witness for C4: converting the concrete string "x" yields the
generic internal failure and is distinct from the compare-and-swap
violation. -/
theorem error_model_witness :
    Error.fromString ['x'] = Error.InternalError ['x'] ∧
    Error.fromString ['x'] ≠ Error.AssertValueFailed :=
  ⟨error_model.2.2.1 ['x'], error_model.2.2.2 ['x']⟩

/-- Claim C5: the seven subspace constants are pairwise distinct ASCII
bytes. -/
theorem subspace_table_distinct_ascii :
    subspaceTable.length = 7 ∧ subspaceTable.Nodup ∧
      ∀ b ∈ subspaceTable, b < 128 := by
  decide

/-- Claim C10: the default `BlobClass` is `Reserved` with
`account_id = 0`, never `Linked`. -/
theorem blobclass_default_reserved :
    BlobClass.default = BlobClass.Reserved 0 ∧
    ∀ a c d, BlobClass.default ≠ BlobClass.Linked a c d :=
  ⟨rfl, fun _ _ _ h => BlobClass.noConfusion h⟩

/-- Witness for C10: the default blob class differs from a concrete
`Linked` class. -/
theorem blobclass_default_reserved_witness :
    BlobClass.default = BlobClass.Reserved 0 ∧
    BlobClass.default ≠ BlobClass.Linked 1 2 3 :=
  ⟨blobclass_default_reserved.1, blobclass_default_reserved.2 1 2 3⟩

/-- Helper: erasing a key removes every binding of it. -/
theorem blobLookup_blobErase (key : List Nat) (s : BlobStoreState) :
    blobLookup key (blobErase key s) = none := by
  induction s with
  | nil => rfl
  | cons kv rest ih =>
    by_cases hk : kv.1 = key
    · simp [blobErase, hk, ih]
    · simp [blobErase, blobLookup, hk, ih]

/-- Claim C6: `get_blob` on an absent blob returns none (for every byte
range), not an error; `delete_blob` returns false when the key is absent
(leaving the store unchanged) and true when a blob is present, after
which `get_blob` for that key returns none for every range. -/
theorem blob_store_absent_delete (s : BlobStoreState) (key : List Nat) :
    (blobLookup key s = none →
      (∀ range, get_blob s key range = none) ∧
      delete_blob s key = (s, false)) ∧
    (blobLookup key s ≠ none →
      (delete_blob s key).2 = true ∧
      ∀ range, get_blob (delete_blob s key).1 key range = none) := by
  constructor
  · intro h
    exact ⟨fun range => by simp [get_blob, h], by simp [delete_blob, h]⟩
  · intro h
    match hl : blobLookup key s with
    | none => exact absurd hl h
    | some data =>
      refine ⟨by simp [delete_blob, hl], fun range => ?_⟩
      simp [delete_blob, hl, get_blob, blobLookup_blobErase]

/-- Witness for C6: on the empty store every lookup is absent and
`get_blob`/`delete_blob` answer none/false; after a `put_blob` the key is
present, `delete_blob` answers true and a subsequent `get_blob` none. -/
theorem blob_store_absent_delete_witness :
    get_blob ([] : BlobStoreState) [9] (0, 2) = none ∧
    delete_blob ([] : BlobStoreState) [9] = ([], false) ∧
    (delete_blob (put_blob [] [1, 2] [5, 6, 7]) [1, 2]).2 = true ∧
    get_blob (delete_blob (put_blob [] [1, 2] [5, 6, 7]) [1, 2]).1
      [1, 2] (0, 3) = none := by
  have habs := (blob_store_absent_delete ([] : BlobStoreState) [9]).1
    (by decide)
  have hpres := (blob_store_absent_delete
    (put_blob [] [1, 2] [5, 6, 7]) [1, 2]).2 (by decide)
  exact ⟨habs.1 (0, 2), habs.2, hpres.1, hpres.2 (0, 3)⟩

/-- Counterexample for C7: on the sorted identifiers 1..100 with anchor
50 and forward page size 10, the model reports `position = 50` while the
anchor's zero-based position in the sequence is 49; the claim demands
both at once, which is impossible. -/
theorem paginate_anchor_position_counterexample :
    (paginate_anchor (List.range' 1 100) 50 10 true).position = 50 ∧
    (List.range' 1 100).indexOf? 50 = some 49 ∧
    ((49 : Int) ≠ 50) := by
  refine ⟨by decide, by decide, by decide⟩

/-- Claim C7 (amended): when the anchor is found at zero-based index `i`,
forward pagination reports `found_anchor = true`, `position = i + 1` —
the zero-based position of the first identifier of the returned window,
one past the anchor — and the window of at most `limit` identifiers
immediately after the anchor; the first returned identifier indeed sits
at index `i + 1` of the full sequence. -/
theorem paginate_anchor_found (seq : List Nat) (anchor limit i : Nat)
    (h : seq.indexOf? anchor = some i) :
    (paginate_anchor seq anchor limit true).found_anchor = true ∧
    (paginate_anchor seq anchor limit true).position = (i : Int) + 1 ∧
    (paginate_anchor seq anchor limit true).ids =
      (seq.drop (i + 1)).take limit ∧
    (∀ x, (paginate_anchor seq anchor limit true).ids.head? = some x →
      seq[i + 1]? = some x) := by
  refine ⟨by simp [paginate_anchor, h], by simp [paginate_anchor, h],
    by simp [paginate_anchor, h], fun x hx => ?_⟩
  simp [paginate_anchor, h] at hx
  rw [← List.head?_drop]
  rw [List.head?_take] at hx
  rcases Nat.eq_zero_or_pos limit with hl | hl
  · simp [hl] at hx
  · rwa [if_neg (Nat.pos_iff_ne_zero.mp hl)] at hx

/-- Witness for C7 (amended): for identifiers 1..100, anchor 50 and
forward page size 10, the anchor is found at index 49, so the result is
`found_anchor = true`, `position = 50`, `ids = [51..60]`. -/
theorem paginate_anchor_found_witness :
    (paginate_anchor (List.range' 1 100) 50 10 true).found_anchor = true ∧
    (paginate_anchor (List.range' 1 100) 50 10 true).position = 50 ∧
    (paginate_anchor (List.range' 1 100) 50 10 true).ids =
      [51, 52, 53, 54, 55, 56, 57, 58, 59, 60] := by
  obtain ⟨h1, h2, h3, -⟩ :=
    paginate_anchor_found (List.range' 1 100) 50 10 49 (by decide)
  refine ⟨h1, by rw [h2]; decide, by rw [h3]; decide⟩

end MailServer
